import Mathlib

/-!
End-device LoRa PHY: state machine and channel occupancy

A shallow embedding of `src/lorawan/model/end-device-lora-phy.cc`
(class `EndDeviceLoraPhy`) and the properties of its state machine, its
listener fan-out and its clear-channel assessment.

Conventions of the embedding

* A C++ `double` that is only stored and compared (`==`, `>`), never computed
  with, is a rational number: every finite double is a rational and the
  comparisons agree. NaN and the infinities are outside the model.
* `uint8_t` values are natural numbers reduced `% 256` where they are stored.
* A `void` method that may hit `NS_ASSERT` returns an `Outcome`: whether the
  call returned or aborted, the object as it is when the call ends, and the
  listener callbacks made during the call, in order.
* An out-of-bounds read of the `sensitivity` array has no defined value: the
  lookup is an `Option`, and so is the result of `IsChannelOccupied`.
* The `int` counter of `IsChannelOccupied` is an integer without a bound: it
  counts events of the snapshot, and a snapshot of 2^31 events or more is
  outside the model.
* `Simulator::Now ()` and `m_interference.GetInterferers ()` are inputs of
  `IsChannelOccupied`: the time `now` and the list `interferers`.
-/

namespace Lorawan

/-! ## Types the source file uses but does not declare -/

/-- A C++ double restricted to its finite values, compared exactly. -/
abbrev Double := ℚ

/-- Modelled from the spec: the `Time` class of the simulator core, which is
not among the sources. A time is a whole number of clock ticks; `+`, `<=` and
`<` are those of the integers (the spec's "monotonically increasing
simulated-time value", no wrap-around inside a simulation run). -/
abbrev Time := Int

/-- Modelled from the spec: `LoraInterferenceHelper::Event`, declared outside
the sources. The spec's InterferenceEvent record
{frequency, spreadingFactor, startTime, endTime, receivedPowerDbm}. -/
structure Event where
  m_frequency : Double
  m_sf : Nat
  m_startTime : Time
  m_endTime : Time
  m_rxPowerdBm : Double
deriving DecidableEq, Repr

namespace Event

/-- Getter used at line 132. -/
def GetFrequency (e : Event) : Double := e.m_frequency

/-- Getter used at line 124; the result is assigned to a `uint8_t`. -/
def GetSpreadingFactor (e : Event) : Nat := e.m_sf % 256

/-- Getter used at line 134. -/
def GetStartTime (e : Event) : Time := e.m_startTime

/-- Getter used at line 133. -/
def GetEndTime (e : Event) : Time := e.m_endTime

/-- Getter used at line 137. -/
def GetRxPowerdBm (e : Event) : Double := e.m_rxPowerdBm

end Event

/-- The enumeration `EndDeviceLoraPhy::State`. -/
inductive State where
  | SLEEP
  | STANDBY
  | TX
  | RX
deriving DecidableEq, Repr

/-- A listener is held by pointer and compared by identity: its address. -/
abbrev EndDeviceLoraPhyListener := Nat

/-- The callbacks of `EndDeviceLoraPhyListener` that the PHY invokes. -/
inductive Notification where
  | NotifyStandby
  | NotifyRxStart
  | NotifyTxStart (txPowerDbm : Double)
  | NotifySleep
deriving DecidableEq, Repr

/-- The ways a call can end the simulation run. -/
inductive Fatal where
  | contractViolation
deriving DecidableEq, Repr

/-- How a call ended: it returned, or the run was aborted. -/
inductive Status where
  | returned
  | aborted (why : Fatal)
deriving DecidableEq, Repr

/-- Modelled from the spec: the `NS_ASSERT` macro of the simulator core, which
is not among the sources. A false condition is the spec's fatal
protocol-contract violation, which terminates the run immediately. -/
def NS_ASSERT (condition : Bool) : Except Fatal Unit :=
  if condition then Except.ok () else Except.error Fatal.contractViolation

/-! ## The PHY object -/

/-- The data members of `EndDeviceLoraPhy` that the source file touches. -/
structure EndDeviceLoraPhy where
  m_state : State
  m_frequency : Double
  m_sf : Nat
  m_CSMAx : Time
  m_listeners : List EndDeviceLoraPhyListener
deriving DecidableEq, Repr

/-- What a method call leaves behind. -/
structure Outcome where
  status : Status
  phy : EndDeviceLoraPhy
  calls : List (EndDeviceLoraPhyListener × Notification)
deriving DecidableEq, Repr

/-- The `sensitivity` array, lines 85-86: SF7 .. SF12. -/
def sensitivityTable : List Double := [-124, -127, -130, -133, -135, -137]

/-- The array read `sensitivity[i]` for a signed index `i` (the source
computes `sf - 7` in `int`): defined for `0 <= i < 6` only. -/
def sensitivity (i : Int) : Option Double :=
  if 0 ≤ i then sensitivityTable.get? i.toNat else none

namespace EndDeviceLoraPhy

/-- The constructor `EndDeviceLoraPhy::EndDeviceLoraPhy ()`, lines 70-76.
`m_CSMAx` is `MilliSeconds (10)`: ten milliseconds in the ticks of `Time`,
whose resolution is set outside the sources and is a parameter here. -/
def new (tenMilliSeconds : Time) : EndDeviceLoraPhy :=
  { m_state := State.SLEEP
    m_frequency := 8681 / 10
    m_sf := 7
    m_CSMAx := tenMilliSeconds
    m_listeners := [] }

/-- Lines 88-92. The parameter is a `uint8_t`. -/
def SetSpreadingFactor (phy : EndDeviceLoraPhy) (sf : Nat) : EndDeviceLoraPhy :=
  { phy with m_sf := sf % 256 }

/-- Lines 94-98. -/
def GetSpreadingFactor (phy : EndDeviceLoraPhy) : Nat := phy.m_sf

/-- Lines 100-104. -/
def IsTransmitting (phy : EndDeviceLoraPhy) : Bool := phy.m_state == State.TX

/-- Lines 106-110. -/
def IsOnFrequency (phy : EndDeviceLoraPhy) (frequencyMHz : Double) : Bool :=
  phy.m_frequency == frequencyMHz

/-- The body of the loop of lines 122-150, from the event at the iterator on:
`occupierCount` is the counter on entry, the result the counter when the loop
ends, or `none` when a `sensitivity` read is out of bounds. The counter is an
`int` in the source; it never exceeds the number of events. -/
def IsChannelOccupied.loop (frequency : Double) (ccgStart ccgEnd : Time) :
    List Event → Int → Option Int
  | [], occupierCount => some occupierCount
  | ite :: rest, occupierCount =>
    let sf := ite.GetSpreadingFactor
    if ite.GetFrequency = frequency ∧
        ¬ (ite.GetEndTime ≤ ccgStart ∨ ccgEnd < ite.GetStartTime) then
      match sensitivity ((sf : Int) - 7) with
      | none => none
      | some threshold =>
        if ite.GetRxPowerdBm > threshold then
          IsChannelOccupied.loop frequency ccgStart ccgEnd rest (occupierCount + 1)
        else
          IsChannelOccupied.loop frequency ccgStart ccgEnd rest occupierCount
    else
      IsChannelOccupied.loop frequency ccgStart ccgEnd rest occupierCount

/-- Lines 112-152. `now` is what `Simulator::Now ()` returns and `interferers`
the list `m_interference.GetInterferers ()` returns. -/
def IsChannelOccupied (phy : EndDeviceLoraPhy) (now : Time) (interferers : List Event)
    (frequency : Double) : Option Bool :=
  let ccgStart := now
  let ccgEnd := ccgStart + phy.m_CSMAx
  let occupierCount : Int := 0
  (IsChannelOccupied.loop frequency ccgStart ccgEnd interferers occupierCount).map
    (fun occupierCount => occupierCount != 0)

/-- Lines 154-158. -/
def SetFrequency (phy : EndDeviceLoraPhy) (frequencyMHz : Double) : EndDeviceLoraPhy :=
  { phy with m_frequency := frequencyMHz }

/-- Lines 160-172. -/
def SwitchToStandby (phy : EndDeviceLoraPhy) : Outcome :=
  let phy := { phy with m_state := State.STANDBY }
  { status := Status.returned
    phy := phy
    calls := phy.m_listeners.map (fun i => (i, Notification.NotifyStandby)) }

/-- Lines 174-188. -/
def SwitchToRx (phy : EndDeviceLoraPhy) : Outcome :=
  match NS_ASSERT (phy.m_state == State.STANDBY) with
  | Except.error why => { status := Status.aborted why, phy := phy, calls := [] }
  | Except.ok () =>
    let phy := { phy with m_state := State.RX }
    { status := Status.returned
      phy := phy
      calls := phy.m_listeners.map (fun i => (i, Notification.NotifyRxStart)) }

/-- Lines 190-204. -/
def SwitchToTx (phy : EndDeviceLoraPhy) (txPowerDbm : Double) : Outcome :=
  match NS_ASSERT (phy.m_state != State.RX) with
  | Except.error why => { status := Status.aborted why, phy := phy, calls := [] }
  | Except.ok () =>
    let phy := { phy with m_state := State.TX }
    { status := Status.returned
      phy := phy
      calls := phy.m_listeners.map (fun i => (i, Notification.NotifyTxStart txPowerDbm)) }

/-- Lines 206-220. -/
def SwitchToSleep (phy : EndDeviceLoraPhy) : Outcome :=
  match NS_ASSERT (phy.m_state == State.STANDBY) with
  | Except.error why => { status := Status.aborted why, phy := phy, calls := [] }
  | Except.ok () =>
    let phy := { phy with m_state := State.SLEEP }
    { status := Status.returned
      phy := phy
      calls := phy.m_listeners.map (fun i => (i, Notification.NotifySleep)) }

/-- Lines 222-228. -/
def GetState (phy : EndDeviceLoraPhy) : State := phy.m_state

/-- Lines 230-234. -/
def RegisterListener (phy : EndDeviceLoraPhy) (listener : EndDeviceLoraPhyListener) :
    EndDeviceLoraPhy :=
  { phy with m_listeners := phy.m_listeners ++ [listener] }

/-- Lines 236-244: `find` gives the first element equal to `listener`, and
`erase` removes that one element. -/
def UnregisterListener (phy : EndDeviceLoraPhy) (listener : EndDeviceLoraPhyListener) :
    EndDeviceLoraPhy :=
  { phy with m_listeners := phy.m_listeners.erase listener }

end EndDeviceLoraPhy

/-! ## Sequences of calls -/

/-- The four transition operations as values, to speak of sequences of them. -/
inductive Transition where
  | SwitchToStandby
  | SwitchToRx
  | SwitchToTx (txPowerDbm : Double)
  | SwitchToSleep
deriving DecidableEq, Repr

/-- One transition call on the object. -/
def Transition.call (phy : EndDeviceLoraPhy) : Transition → Outcome
  | Transition.SwitchToStandby => phy.SwitchToStandby
  | Transition.SwitchToRx => phy.SwitchToRx
  | Transition.SwitchToTx txPowerDbm => phy.SwitchToTx txPowerDbm
  | Transition.SwitchToSleep => phy.SwitchToSleep

/-- The methods of the source file that write to the object. -/
inductive Method where
  | SetSpreadingFactor (sf : Nat)
  | SetFrequency (frequencyMHz : Double)
  | transition (t : Transition)
  | RegisterListener (listener : EndDeviceLoraPhyListener)
  | UnregisterListener (listener : EndDeviceLoraPhyListener)
deriving DecidableEq, Repr

/-- One method call on the object. The setters and the registry methods have
no failing path and call no listener. -/
def Method.call (phy : EndDeviceLoraPhy) : Method → Outcome
  | Method.SetSpreadingFactor sf =>
    { status := Status.returned, phy := phy.SetSpreadingFactor sf, calls := [] }
  | Method.SetFrequency frequencyMHz =>
    { status := Status.returned, phy := phy.SetFrequency frequencyMHz, calls := [] }
  | Method.transition t => t.call phy
  | Method.RegisterListener listener =>
    { status := Status.returned, phy := phy.RegisterListener listener, calls := [] }
  | Method.UnregisterListener listener =>
    { status := Status.returned, phy := phy.UnregisterListener listener, calls := [] }

/-- Calls made one after the other on the same object. The run ends at the
first call that aborts: the later calls are not made. -/
def callSequence {α : Type} (call : EndDeviceLoraPhy → α → Outcome)
    (phy : EndDeviceLoraPhy) : List α → Outcome
  | [] => { status := Status.returned, phy := phy, calls := [] }
  | op :: rest =>
    let first := call phy op
    match first.status with
    | Status.aborted _ => first
    | Status.returned =>
      let others := callSequence call first.phy rest
      { status := others.status, phy := others.phy, calls := first.calls ++ others.calls }

/-! ## The transition table of the specification -/

/-- The column "Precondition" of the table of spec section 4.2. -/
def tablePrecondition : Transition → State → Bool
  | Transition.SwitchToStandby, _ => true
  | Transition.SwitchToRx, s => s == State.STANDBY
  | Transition.SwitchToTx _, s => s != State.RX
  | Transition.SwitchToSleep, s => s == State.STANDBY

/-- The column "Postcondition" of the table of spec section 4.2. -/
def tablePostcondition : Transition → State
  | Transition.SwitchToStandby => State.STANDBY
  | Transition.SwitchToRx => State.RX
  | Transition.SwitchToTx _ => State.TX
  | Transition.SwitchToSleep => State.SLEEP

/-- The fold of the table over a sequence: the state the table gives when
every step satisfies its precondition, nothing when some step does not. -/
def tableFold : State → List Transition → Option State
  | s, [] => some s
  | s, t :: rest =>
    if tablePrecondition t s then tableFold (tablePostcondition t) rest else none

/-! ## The state machine -/

section StateMachine

open EndDeviceLoraPhy

lemma SwitchToRx_standby (phy : EndDeviceLoraPhy) (h : phy.m_state = State.STANDBY) :
    phy.SwitchToRx =
      { status := Status.returned
        phy := { phy with m_state := State.RX }
        calls := phy.m_listeners.map (fun i => (i, Notification.NotifyRxStart)) } := by
  simp [SwitchToRx, NS_ASSERT, h]

lemma SwitchToRx_other (phy : EndDeviceLoraPhy) (h : phy.m_state ≠ State.STANDBY) :
    phy.SwitchToRx =
      { status := Status.aborted Fatal.contractViolation, phy := phy, calls := [] } := by
  simp [SwitchToRx, NS_ASSERT, h]

lemma SwitchToSleep_standby (phy : EndDeviceLoraPhy) (h : phy.m_state = State.STANDBY) :
    phy.SwitchToSleep =
      { status := Status.returned
        phy := { phy with m_state := State.SLEEP }
        calls := phy.m_listeners.map (fun i => (i, Notification.NotifySleep)) } := by
  simp [SwitchToSleep, NS_ASSERT, h]

lemma SwitchToSleep_other (phy : EndDeviceLoraPhy) (h : phy.m_state ≠ State.STANDBY) :
    phy.SwitchToSleep =
      { status := Status.aborted Fatal.contractViolation, phy := phy, calls := [] } := by
  simp [SwitchToSleep, NS_ASSERT, h]

lemma SwitchToTx_notRx (phy : EndDeviceLoraPhy) (p : Double) (h : phy.m_state ≠ State.RX) :
    phy.SwitchToTx p =
      { status := Status.returned
        phy := { phy with m_state := State.TX }
        calls := phy.m_listeners.map (fun i => (i, Notification.NotifyTxStart p)) } := by
  simp [SwitchToTx, NS_ASSERT, h]

lemma SwitchToTx_rx (phy : EndDeviceLoraPhy) (p : Double) (h : phy.m_state = State.RX) :
    phy.SwitchToTx p =
      { status := Status.aborted Fatal.contractViolation, phy := phy, calls := [] } := by
  simp [SwitchToTx, NS_ASSERT, h]

/-- C3: for every PHY state, SwitchToRx ends in the contract violation if and
only if the state is not STANDBY; from STANDBY it returns and the state is
then RX. -/
theorem SwitchToRx_contract (phy : EndDeviceLoraPhy) :
    (phy.SwitchToRx.status = Status.aborted Fatal.contractViolation ↔
        phy.GetState ≠ State.STANDBY) ∧
    (phy.GetState = State.STANDBY →
        phy.SwitchToRx.status = Status.returned ∧
        phy.SwitchToRx.phy.GetState = State.RX) := by
  by_cases h : phy.m_state = State.STANDBY
  · simp [SwitchToRx_standby phy h, GetState, h]
  · simp [SwitchToRx_other phy h, GetState, h]

/-- Witness of C3: a PHY in STANDBY switches to RX, and the same call on the
resulting PHY, now in RX, is a contract violation. -/
theorem SwitchToRx_contract_witness :
    (SwitchToRx { new 10 with m_state := State.STANDBY }).phy.GetState = State.RX ∧
    (SwitchToRx { new 10 with m_state := State.RX }).status =
      Status.aborted Fatal.contractViolation :=
  ⟨((SwitchToRx_contract { new 10 with m_state := State.STANDBY }).2 rfl).2,
   (SwitchToRx_contract { new 10 with m_state := State.RX }).1.2 (by decide)⟩

/-- C4: for every PHY state and transmit power, SwitchToTx ends in the contract
violation if and only if the state is RX; from SLEEP, STANDBY and TX it
returns, the state is then TX and IsTransmitting holds. -/
theorem SwitchToTx_contract (phy : EndDeviceLoraPhy) (txPowerDbm : Double) :
    ((phy.SwitchToTx txPowerDbm).status = Status.aborted Fatal.contractViolation ↔
        phy.GetState = State.RX) ∧
    (phy.GetState ≠ State.RX →
        (phy.SwitchToTx txPowerDbm).status = Status.returned ∧
        (phy.SwitchToTx txPowerDbm).phy.GetState = State.TX ∧
        (phy.SwitchToTx txPowerDbm).phy.IsTransmitting = true) := by
  by_cases h : phy.m_state = State.RX
  · simp [SwitchToTx_rx phy txPowerDbm h, GetState, h]
  · simp [SwitchToTx_notRx phy txPowerDbm h, GetState, IsTransmitting, h]

/-- Witness of C4: a PHY already in TX switches to TX again. -/
theorem SwitchToTx_contract_witness :
    (SwitchToTx { new 10 with m_state := State.TX } 14).status = Status.returned ∧
    (SwitchToTx { new 10 with m_state := State.TX } 14).phy.GetState = State.TX ∧
    (SwitchToTx { new 10 with m_state := State.TX } 14).phy.IsTransmitting = true :=
  (SwitchToTx_contract { new 10 with m_state := State.TX } 14).2 (by decide)

/-- C5: for every PHY state, SwitchToSleep ends in the contract violation if
and only if the state is not STANDBY; from STANDBY it returns and the state is
then SLEEP. -/
theorem SwitchToSleep_contract (phy : EndDeviceLoraPhy) :
    (phy.SwitchToSleep.status = Status.aborted Fatal.contractViolation ↔
        phy.GetState ≠ State.STANDBY) ∧
    (phy.GetState = State.STANDBY →
        phy.SwitchToSleep.status = Status.returned ∧
        phy.SwitchToSleep.phy.GetState = State.SLEEP) := by
  by_cases h : phy.m_state = State.STANDBY
  · simp [SwitchToSleep_standby phy h, GetState, h]
  · simp [SwitchToSleep_other phy h, GetState, h]

/-- Witness of C5: a PHY in STANDBY goes to sleep, and a sleeping PHY asked to
sleep is a contract violation. -/
theorem SwitchToSleep_contract_witness :
    (SwitchToSleep { new 10 with m_state := State.STANDBY }).phy.GetState = State.SLEEP ∧
    (SwitchToSleep (new 10)).status = Status.aborted Fatal.contractViolation :=
  ⟨((SwitchToSleep_contract { new 10 with m_state := State.STANDBY }).2 rfl).2,
   (SwitchToSleep_contract (new 10)).1.2 (by decide)⟩

/-- C6: from every PHY state SwitchToStandby returns and the state is then
STANDBY, so that each of SwitchToRx, SwitchToTx and SwitchToSleep called next
returns. -/
theorem SwitchToStandby_total (phy : EndDeviceLoraPhy) (txPowerDbm : Double) :
    phy.SwitchToStandby.status = Status.returned ∧
    phy.SwitchToStandby.phy.GetState = State.STANDBY ∧
    phy.SwitchToStandby.phy.SwitchToRx.status = Status.returned ∧
    (phy.SwitchToStandby.phy.SwitchToTx txPowerDbm).status = Status.returned ∧
    phy.SwitchToStandby.phy.SwitchToSleep.status = Status.returned := by
  have h : phy.SwitchToStandby.phy.m_state = State.STANDBY := rfl
  refine ⟨rfl, h, ?_, ?_, ?_⟩
  · rw [SwitchToRx_standby _ h]
  · rw [SwitchToTx_notRx _ _ (by rw [h]; decide)]
  · rw [SwitchToSleep_standby _ h]

lemma Transition.call_of_precondition (phy : EndDeviceLoraPhy) (t : Transition)
    (h : tablePrecondition t phy.m_state = true) :
    (t.call phy).status = Status.returned ∧
    (t.call phy).phy.m_state = tablePostcondition t := by
  cases t with
  | SwitchToStandby => exact ⟨rfl, rfl⟩
  | SwitchToRx =>
    have h' : phy.m_state = State.STANDBY := by simpa [tablePrecondition] using h
    simp [Transition.call, SwitchToRx_standby phy h', tablePostcondition]
  | SwitchToTx p =>
    have h' : phy.m_state ≠ State.RX := by simpa [tablePrecondition] using h
    simp [Transition.call, SwitchToTx_notRx phy p h', tablePostcondition]
  | SwitchToSleep =>
    have h' : phy.m_state = State.STANDBY := by simpa [tablePrecondition] using h
    simp [Transition.call, SwitchToSleep_standby phy h', tablePostcondition]

lemma Transition.call_of_not_precondition (phy : EndDeviceLoraPhy) (t : Transition)
    (h : tablePrecondition t phy.m_state = false) :
    t.call phy =
      { status := Status.aborted Fatal.contractViolation, phy := phy, calls := [] } := by
  cases t with
  | SwitchToStandby => simp [tablePrecondition] at h
  | SwitchToRx =>
    have h' : phy.m_state ≠ State.STANDBY := by simpa [tablePrecondition] using h
    simp [Transition.call, SwitchToRx_other phy h']
  | SwitchToTx p =>
    have h' : phy.m_state = State.RX := by simpa [tablePrecondition] using h
    simp [Transition.call, SwitchToTx_rx phy p h']
  | SwitchToSleep =>
    have h' : phy.m_state ≠ State.STANDBY := by simpa [tablePrecondition] using h
    simp [Transition.call, SwitchToSleep_other phy h']

lemma callSequence_cons_returned {α : Type} (call : EndDeviceLoraPhy → α → Outcome)
    (phy : EndDeviceLoraPhy) (op : α) (rest : List α)
    (h : (call phy op).status = Status.returned) :
    callSequence call phy (op :: rest) =
      { status := (callSequence call (call phy op).phy rest).status
        phy := (callSequence call (call phy op).phy rest).phy
        calls := (call phy op).calls ++ (callSequence call (call phy op).phy rest).calls } := by
  simp [callSequence, h]

lemma callSequence_cons_aborted {α : Type} (call : EndDeviceLoraPhy → α → Outcome)
    (phy : EndDeviceLoraPhy) (op : α) (rest : List α) (why : Fatal)
    (h : (call phy op).status = Status.aborted why) :
    callSequence call phy (op :: rest) = call phy op := by
  simp [callSequence, h]

/-- A sequence that the table accepts runs to its end, and ends in the state
the table gives. -/
lemma callSequence_of_tableFold (ops : List Transition) :
    ∀ (phy : EndDeviceLoraPhy) (s : State), tableFold phy.m_state ops = some s →
      (callSequence Transition.call phy ops).status = Status.returned ∧
      (callSequence Transition.call phy ops).phy.m_state = s := by
  induction ops with
  | nil =>
    intro phy s h
    simp only [tableFold, Option.some.injEq] at h
    exact ⟨rfl, h⟩
  | cons t rest ih =>
    intro phy s h
    by_cases hp : tablePrecondition t phy.m_state = true
    · obtain ⟨h1, h2⟩ := Transition.call_of_precondition phy t hp
      rw [callSequence_cons_returned _ _ _ _ h1]
      simp only [tableFold, hp, if_true] at h
      rw [← h2] at h
      exact ih _ s h
    · simp [tableFold, hp] at h

/-- A sequence that the table rejects runs up to the first step whose
precondition fails, and aborts there with the object as that step found it. -/
lemma callSequence_of_tableFold_none (ops : List Transition) :
    ∀ (phy : EndDeviceLoraPhy), tableFold phy.m_state ops = none →
      ∃ (before : List Transition) (t : Transition) (after : List Transition) (s : State),
        ops = before ++ t :: after ∧
        tableFold phy.m_state before = some s ∧
        tablePrecondition t s = false ∧
        (callSequence Transition.call phy before).status = Status.returned ∧
        (callSequence Transition.call phy before).phy.m_state = s ∧
        callSequence Transition.call phy ops =
          { status := Status.aborted Fatal.contractViolation
            phy := (callSequence Transition.call phy before).phy
            calls := (callSequence Transition.call phy before).calls } := by
  induction ops with
  | nil => intro phy h; simp [tableFold] at h
  | cons t rest ih =>
    intro phy h
    by_cases hp : tablePrecondition t phy.m_state = true
    · obtain ⟨h1, h2⟩ := Transition.call_of_precondition phy t hp
      simp only [tableFold, hp, if_true] at h
      rw [← h2] at h
      obtain ⟨before, t', after, s, e1, e2, e3, e4, e5, e6⟩ := ih _ h
      refine ⟨t :: before, t', after, s, by simp [e1], ?_, e3, ?_, ?_, ?_⟩
      · simpa [tableFold, hp, h2] using e2
      · rw [callSequence_cons_returned _ _ _ _ h1]; exact e4
      · rw [callSequence_cons_returned _ _ _ _ h1]; exact e5
      · rw [callSequence_cons_returned _ _ _ _ h1, callSequence_cons_returned _ _ _ _ h1, e6]
    · have hp' : tablePrecondition t phy.m_state = false := by simpa using hp
      refine ⟨[], t, rest, phy.m_state, rfl, rfl, hp', rfl, rfl, ?_⟩
      have hc := Transition.call_of_not_precondition phy t hp'
      rw [callSequence_cons_aborted _ _ _ _ Fatal.contractViolation (by rw [hc]), hc]
      rfl

/-- C2: a freshly constructed PHY is in SLEEP; a sequence of transitions of
which every step satisfies its precondition of the table returns and leaves the
state the fold of the table gives; a sequence of which some step does not ends
in the contract violation at the first such step: the steps before it have
returned, and the run stops with the object and the notifications as they were
when that step was called. -/
theorem callSequence_refines_table (tenMilliSeconds : Time) :
    (new tenMilliSeconds).GetState = State.SLEEP ∧
    ∀ ops : List Transition,
      (∀ s, tableFold State.SLEEP ops = some s →
        (callSequence Transition.call (new tenMilliSeconds) ops).status = Status.returned ∧
        (callSequence Transition.call (new tenMilliSeconds) ops).phy.GetState = s) ∧
      (tableFold State.SLEEP ops = none →
        ∃ (before : List Transition) (t : Transition) (after : List Transition) (s : State),
          ops = before ++ t :: after ∧
          tableFold State.SLEEP before = some s ∧
          tablePrecondition t s = false ∧
          (callSequence Transition.call (new tenMilliSeconds) before).status
            = Status.returned ∧
          (callSequence Transition.call (new tenMilliSeconds) before).phy.GetState = s ∧
          callSequence Transition.call (new tenMilliSeconds) ops =
            { status := Status.aborted Fatal.contractViolation
              phy := (callSequence Transition.call (new tenMilliSeconds) before).phy
              calls := (callSequence Transition.call (new tenMilliSeconds) before).calls }) :=
  ⟨rfl, fun ops =>
    ⟨fun s h => callSequence_of_tableFold ops (new tenMilliSeconds) s h,
     fun h => callSequence_of_tableFold_none ops (new tenMilliSeconds) h⟩⟩

/-- Witness of C2: SLEEP, standby, receive is accepted by the table and ends in
RX; a transmission asked next is rejected by the table, and the run aborts at
it. -/
theorem callSequence_refines_table_witness :
    ((callSequence Transition.call (new 10)
        [Transition.SwitchToStandby, Transition.SwitchToRx]).status = Status.returned ∧
      (callSequence Transition.call (new 10)
        [Transition.SwitchToStandby, Transition.SwitchToRx]).phy.GetState = State.RX) ∧
    (callSequence Transition.call (new 10)
        [Transition.SwitchToStandby, Transition.SwitchToRx, Transition.SwitchToTx 14,
          Transition.SwitchToStandby]).status = Status.aborted Fatal.contractViolation :=
  ⟨((callSequence_refines_table 10).2
      [Transition.SwitchToStandby, Transition.SwitchToRx]).1 State.RX rfl,
   by
    obtain ⟨_, _, _, _, _, _, _, _, _, h⟩ := ((callSequence_refines_table 10).2
      [Transition.SwitchToStandby, Transition.SwitchToRx, Transition.SwitchToTx 14,
        Transition.SwitchToStandby]).2 rfl
    rw [h]⟩

end StateMachine

/-! ## Channel occupancy -/

section Occupancy

open EndDeviceLoraPhy

lemma sensitivity_of_range (sf : Nat) (h7 : 7 ≤ sf) (h12 : sf ≤ 12) :
    ∃ t, sensitivity ((sf : Int) - 7) = some t := by
  interval_cases sf <;> simp [sensitivity, sensitivityTable]

/-- What the loop computes when every read of the table it makes is in bounds:
it ends, the counter does not decrease, and it increases exactly when some event
passes the three tests of lines 132-137. -/
lemma IsChannelOccupied.loop_spec (frequency : Double) (ccgStart ccgEnd : Time)
    (interferers : List Event) :
    (∀ e ∈ interferers, e.GetFrequency = frequency →
        ¬ (e.GetEndTime ≤ ccgStart ∨ ccgEnd < e.GetStartTime) →
        ∃ t, sensitivity ((e.GetSpreadingFactor : Int) - 7) = some t) →
    ∀ c : Int, ∃ n : Int,
      IsChannelOccupied.loop frequency ccgStart ccgEnd interferers c = some n ∧ c ≤ n ∧
      (c < n ↔ ∃ e ∈ interferers, e.GetFrequency = frequency ∧
        ¬ (e.GetEndTime ≤ ccgStart ∨ ccgEnd < e.GetStartTime) ∧
        ∃ t, sensitivity ((e.GetSpreadingFactor : Int) - 7) = some t ∧
          e.GetRxPowerdBm > t) := by
  induction interferers with
  | nil => intro _ c; exact ⟨c, rfl, le_refl c, by simp⟩
  | cons ite rest ih =>
    intro hdef c
    have hrest := ih (fun e he => hdef e (List.mem_cons_of_mem _ he))
    by_cases hcond : ite.GetFrequency = frequency ∧
        ¬ (ite.GetEndTime ≤ ccgStart ∨ ccgEnd < ite.GetStartTime)
    · obtain ⟨t, ht⟩ := hdef ite (List.mem_cons_self _ _) hcond.1 hcond.2
      by_cases hpow : ite.GetRxPowerdBm > t
      · obtain ⟨n, hn, hle, _⟩ := hrest (c + 1)
        refine ⟨n, ?_, by omega, ?_⟩
        · simp only [IsChannelOccupied.loop, hcond, ht, hpow]
          simpa using hn
        · constructor
          · intro _
            exact ⟨ite, List.mem_cons_self _ _, hcond.1, hcond.2, t, ht, hpow⟩
          · intro _; omega
      · obtain ⟨n, hn, hle, hiff⟩ := hrest c
        refine ⟨n, ?_, hle, ?_⟩
        · simp only [IsChannelOccupied.loop, hcond, ht, hpow]
          simpa using hn
        · rw [hiff]
          constructor
          · rintro ⟨e, he, h⟩
            exact ⟨e, List.mem_cons_of_mem _ he, h⟩
          · rintro ⟨e, he, h1, h2, t', ht', hp'⟩
            rcases List.mem_cons.mp he with rfl | he'
            · rw [ht] at ht'
              cases ht'
              exact absurd hp' hpow
            · exact ⟨e, he', h1, h2, t', ht', hp'⟩
    · obtain ⟨n, hn, hle, hiff⟩ := hrest c
      refine ⟨n, ?_, hle, ?_⟩
      · simp only [IsChannelOccupied.loop, hcond]
        simpa using hn
      · rw [hiff]
        constructor
        · rintro ⟨e, he, h⟩
          exact ⟨e, List.mem_cons_of_mem _ he, h⟩
        · rintro ⟨e, he, h1, h2, h3⟩
          rcases List.mem_cons.mp he with rfl | he'
          · exact absurd ⟨h1, h2⟩ hcond
          · exact ⟨e, he', h1, h2, h3⟩

/-- The result of `IsChannelOccupied` when every read of the table it makes is
in bounds. -/
lemma IsChannelOccupied_spec (phy : EndDeviceLoraPhy) (now : Time)
    (interferers : List Event) (frequency : Double)
    (hdef : ∀ e ∈ interferers, e.GetFrequency = frequency →
        ¬ (e.GetEndTime ≤ now ∨ now + phy.m_CSMAx < e.GetStartTime) →
        ∃ t, sensitivity ((e.GetSpreadingFactor : Int) - 7) = some t) :
    (∃ b, phy.IsChannelOccupied now interferers frequency = some b) ∧
    (phy.IsChannelOccupied now interferers frequency = some true ↔
      ∃ e ∈ interferers, e.GetFrequency = frequency ∧
        ¬ (e.GetEndTime ≤ now ∨ now + phy.m_CSMAx < e.GetStartTime) ∧
        ∃ t, sensitivity ((e.GetSpreadingFactor : Int) - 7) = some t ∧
          e.GetRxPowerdBm > t) := by
  obtain ⟨n, hn, hle, hiff⟩ :=
    IsChannelOccupied.loop_spec frequency now (now + phy.m_CSMAx) interferers hdef 0
  have hres : phy.IsChannelOccupied now interferers frequency = some (n != 0) := by
    simp [IsChannelOccupied, hn]
  refine ⟨⟨_, hres⟩, ?_⟩
  rw [hres, ← hiff]
  simp only [Option.some.injEq, bne_iff_ne, ne_eq]
  omega

lemma IsChannelOccupied_false_of_not_true (phy : EndDeviceLoraPhy) (now : Time)
    (interferers : List Event) (frequency : Double)
    (hsome : ∃ b, phy.IsChannelOccupied now interferers frequency = some b)
    (hne : phy.IsChannelOccupied now interferers frequency ≠ some true) :
    phy.IsChannelOccupied now interferers frequency = some false := by
  obtain ⟨b, hb⟩ := hsome
  cases b with
  | true => exact absurd hb hne
  | false => exact hb

lemma IsChannelOccupied.loop_filter (frequency : Double) (ccgStart ccgEnd : Time)
    (interferers : List Event) :
    ∀ c : Int,
      IsChannelOccupied.loop frequency ccgStart ccgEnd interferers c =
      IsChannelOccupied.loop frequency ccgStart ccgEnd
        (interferers.filter (fun e => decide (e.GetFrequency = frequency))) c := by
  induction interferers with
  | nil => intro c; rfl
  | cons ite rest ih =>
    intro c
    by_cases hf : ite.GetFrequency = frequency
    · rw [List.filter_cons_of_pos (by simpa using hf)]
      simp only [IsChannelOccupied.loop, ih]
    · rw [List.filter_cons_of_neg (by simpa using hf)]
      simp only [IsChannelOccupied.loop, hf, false_and, if_false]
      exact ih c

/-- C1: when the events of the snapshot have spreading factors in [7,12],
IsChannelOccupied returns a boolean, and it returns true if and only if the
snapshot has an event on the frequency that ends after now, starts no later
than now plus the sensing duration, and has a power above the sensitivity of
its spreading factor. -/
theorem IsChannelOccupied_iff (phy : EndDeviceLoraPhy) (now : Time)
    (interferers : List Event) (frequency : Double)
    (hsf : ∀ e ∈ interferers, 7 ≤ e.GetSpreadingFactor ∧ e.GetSpreadingFactor ≤ 12) :
    (∃ b, phy.IsChannelOccupied now interferers frequency = some b) ∧
    (phy.IsChannelOccupied now interferers frequency = some true ↔
      ∃ e ∈ interferers, e.GetFrequency = frequency ∧ e.GetEndTime > now ∧
        e.GetStartTime ≤ now + phy.m_CSMAx ∧
        ∃ t, sensitivity ((e.GetSpreadingFactor : Int) - 7) = some t ∧
          e.GetRxPowerdBm > t) := by
  obtain ⟨hb, hiff⟩ := IsChannelOccupied_spec phy now interferers frequency
    (fun e he _ _ => sensitivity_of_range _ (hsf e he).1 (hsf e he).2)
  refine ⟨hb, hiff.trans ?_⟩
  constructor
  · rintro ⟨e, he, h1, h2, h3⟩
    obtain ⟨h2a, h2b⟩ := not_or.mp h2
    exact ⟨e, he, h1, not_le.mp h2a, not_lt.mp h2b, h3⟩
  · rintro ⟨e, he, h1, h2, h3, h4⟩
    exact ⟨e, he, h1, not_or.mpr ⟨not_le.mpr h2, not_lt.mpr h3⟩, h4⟩

/-- Witness of C1: one SF7 event on 868.1 MHz at -120 dBm, on air from 0 to 5,
sensed at time 0 with a sensing duration of 10. -/
theorem IsChannelOccupied_iff_witness :
    (new 10).IsChannelOccupied 0
      [{ m_frequency := 8681 / 10, m_sf := 7, m_startTime := 0, m_endTime := 5,
         m_rxPowerdBm := -120 }] (8681 / 10) = some true :=
  (IsChannelOccupied_iff (new 10) 0
      [{ m_frequency := 8681 / 10, m_sf := 7, m_startTime := 0, m_endTime := 5,
         m_rxPowerdBm := -120 }] (8681 / 10)
      (by simp [Event.GetSpreadingFactor])).2.2
    ⟨_, List.mem_cons_self _ _, rfl, by decide, by decide, -124,
      by simp [sensitivity, sensitivityTable, Event.GetSpreadingFactor],
      by norm_num [Event.GetRxPowerdBm]⟩

/-- C7: the boundary rule of the window. For one event on the frequency with a
spreading factor in [7,12] and a power above its threshold: if it ends exactly
at now the channel is not occupied; if it starts exactly at now plus the
sensing duration, and ends after now, the channel is occupied. -/
theorem IsChannelOccupied_boundary (phy : EndDeviceLoraPhy) (now : Time)
    (frequency : Double) (e : Event)
    (hf : e.GetFrequency = frequency)
    (hsf : 7 ≤ e.GetSpreadingFactor ∧ e.GetSpreadingFactor ≤ 12)
    (hpow : ∃ t, sensitivity ((e.GetSpreadingFactor : Int) - 7) = some t ∧
      e.GetRxPowerdBm > t) :
    (e.GetEndTime = now → phy.IsChannelOccupied now [e] frequency = some false) ∧
    (e.GetStartTime = now + phy.m_CSMAx → e.GetEndTime > now →
      phy.IsChannelOccupied now [e] frequency = some true) := by
  obtain ⟨hb, hiff⟩ := IsChannelOccupied_spec phy now [e] frequency
    (fun e' he' _ _ => by
      rw [List.mem_singleton.mp he']
      exact sensitivity_of_range _ hsf.1 hsf.2)
  constructor
  · intro hend
    apply IsChannelOccupied_false_of_not_true _ _ _ _ hb
    rw [ne_eq, hiff]
    rintro ⟨e', he', _, h2, _⟩
    rw [List.mem_singleton.mp he'] at h2
    exact h2 (Or.inl (le_of_eq hend))
  · intro hstart hend
    rw [hiff]
    refine ⟨e, List.mem_singleton_self e, hf, ?_, hpow⟩
    rintro (h | h)
    · exact absurd hend (not_lt.mpr h)
    · rw [hstart] at h
      exact lt_irrefl _ h

/-- Witness of C7: sensed at now = 20 with a sensing duration of 10, an SF9
event at -100 dBm that ends at 20 does not occupy the channel, and one that
starts at 30 does. -/
theorem IsChannelOccupied_boundary_witness :
    (new 10).IsChannelOccupied 20
      [{ m_frequency := 8683 / 10, m_sf := 9, m_startTime := 3, m_endTime := 20,
         m_rxPowerdBm := -100 }] (8683 / 10) = some false ∧
    (new 10).IsChannelOccupied 20
      [{ m_frequency := 8683 / 10, m_sf := 9, m_startTime := 30, m_endTime := 45,
         m_rxPowerdBm := -100 }] (8683 / 10) = some true :=
  ⟨(IsChannelOccupied_boundary (new 10) 20 (8683 / 10)
      { m_frequency := 8683 / 10, m_sf := 9, m_startTime := 3, m_endTime := 20,
        m_rxPowerdBm := -100 }
      rfl (by simp [Event.GetSpreadingFactor])
      ⟨-130, by simp [sensitivity, sensitivityTable, Event.GetSpreadingFactor],
        by norm_num [Event.GetRxPowerdBm]⟩).1 rfl,
   (IsChannelOccupied_boundary (new 10) 20 (8683 / 10)
      { m_frequency := 8683 / 10, m_sf := 9, m_startTime := 30, m_endTime := 45,
        m_rxPowerdBm := -100 }
      rfl (by simp [Event.GetSpreadingFactor])
      ⟨-130, by simp [sensitivity, sensitivityTable, Event.GetSpreadingFactor],
        by norm_num [Event.GetRxPowerdBm]⟩).2 rfl (by decide)⟩

/-- C8: the threshold is strict. When every event on the frequency has a
spreading factor in [7,12] and a power at most the sensitivity of that
spreading factor, the channel is not occupied, whatever the time windows. -/
theorem IsChannelOccupied_strict_threshold (phy : EndDeviceLoraPhy) (now : Time)
    (interferers : List Event) (frequency : Double)
    (h : ∀ e ∈ interferers, e.GetFrequency = frequency →
      (7 ≤ e.GetSpreadingFactor ∧ e.GetSpreadingFactor ≤ 12) ∧
      ∃ t, sensitivity ((e.GetSpreadingFactor : Int) - 7) = some t ∧
        e.GetRxPowerdBm ≤ t) :
    phy.IsChannelOccupied now interferers frequency = some false := by
  obtain ⟨hb, hiff⟩ := IsChannelOccupied_spec phy now interferers frequency
    (fun e he hf _ => sensitivity_of_range _ (h e he hf).1.1 (h e he hf).1.2)
  apply IsChannelOccupied_false_of_not_true _ _ _ _ hb
  rw [ne_eq, hiff]
  rintro ⟨e, he, hf, _, t, ht, hgt⟩
  obtain ⟨_, t', ht', hle⟩ := h e he hf
  rw [ht] at ht'
  cases ht'
  exact absurd hgt (not_lt.mpr hle)

/-- Witness of C8: an SF7 event at exactly -124 dBm in the middle of the
window, next to a strong event on another frequency. -/
theorem IsChannelOccupied_strict_threshold_witness :
    (new 10).IsChannelOccupied 0
      [{ m_frequency := 8681 / 10, m_sf := 7, m_startTime := 0, m_endTime := 5,
         m_rxPowerdBm := -124 },
       { m_frequency := 8683 / 10, m_sf := 40, m_startTime := 0, m_endTime := 5,
         m_rxPowerdBm := 0 }] (8681 / 10) = some false :=
  IsChannelOccupied_strict_threshold (new 10) 0 _ (8681 / 10) (by
    intro e he hf
    simp only [List.mem_cons, List.mem_singleton, List.not_mem_nil, or_false] at he
    rcases he with rfl | rfl
    · exact ⟨by simp [Event.GetSpreadingFactor], -124,
        by simp [sensitivity, sensitivityTable, Event.GetSpreadingFactor],
        by norm_num [Event.GetRxPowerdBm]⟩
    · norm_num [Event.GetFrequency] at hf)

/-- C9: events on other frequencies never affect the result. IsChannelOccupied
gives the same on the snapshot and on the snapshot without the events of
another frequency, whatever those are; it gives false on the empty snapshot
and on a snapshot with no event on the frequency. -/
theorem IsChannelOccupied_frequency_isolation (phy : EndDeviceLoraPhy) (now : Time)
    (interferers : List Event) (frequency : Double) :
    phy.IsChannelOccupied now interferers frequency =
      phy.IsChannelOccupied now
        (interferers.filter (fun e => decide (e.GetFrequency = frequency))) frequency ∧
    phy.IsChannelOccupied now [] frequency = some false ∧
    ((∀ e ∈ interferers, e.GetFrequency ≠ frequency) →
      phy.IsChannelOccupied now interferers frequency = some false) := by
  have hfilter : phy.IsChannelOccupied now interferers frequency =
      phy.IsChannelOccupied now
        (interferers.filter (fun e => decide (e.GetFrequency = frequency))) frequency := by
    simp only [IsChannelOccupied]
    rw [IsChannelOccupied.loop_filter]
  refine ⟨hfilter, rfl, ?_⟩
  intro hno
  rw [hfilter, List.filter_eq_nil_iff.mpr (fun e he => by simpa using hno e he)]
  rfl

/-- Witness of C9: a strong event on 868.3 MHz with a spreading factor that has
no threshold leaves 868.1 MHz clear. -/
theorem IsChannelOccupied_frequency_isolation_witness :
    (new 10).IsChannelOccupied 0
      [{ m_frequency := 8683 / 10, m_sf := 40, m_startTime := 0, m_endTime := 5,
         m_rxPowerdBm := 0 }] (8681 / 10) = some false :=
  (IsChannelOccupied_frequency_isolation (new 10) 0 _ (8681 / 10)).2.2 (by
    intro e he
    rw [List.mem_singleton.mp he]
    norm_num [Event.GetFrequency])

end Occupancy

/-! ## The spreading factor of the device -/

section SpreadingFactor

open EndDeviceLoraPhy

lemma Transition.call_keeps_m_sf (phy : EndDeviceLoraPhy) (t : Transition) :
    (t.call phy).phy.m_sf = phy.m_sf := by
  by_cases hp : tablePrecondition t phy.m_state = true
  · cases t with
    | SwitchToStandby => rfl
    | SwitchToRx =>
      have h' : phy.m_state = State.STANDBY := by simpa [tablePrecondition] using hp
      simp [Transition.call, SwitchToRx_standby phy h']
    | SwitchToTx p =>
      have h' : phy.m_state ≠ State.RX := by simpa [tablePrecondition] using hp
      simp [Transition.call, SwitchToTx_notRx phy p h']
    | SwitchToSleep =>
      have h' : phy.m_state = State.STANDBY := by simpa [tablePrecondition] using hp
      simp [Transition.call, SwitchToSleep_standby phy h']
  · rw [Transition.call_of_not_precondition phy t (by simpa using hp)]

lemma Method.call_m_sf_in_range (phy : EndDeviceLoraPhy) (m : Method)
    (hm : ∀ sf, m = Method.SetSpreadingFactor sf → 7 ≤ sf ∧ sf ≤ 12)
    (h : 7 ≤ phy.m_sf ∧ phy.m_sf ≤ 12) :
    7 ≤ (m.call phy).phy.m_sf ∧ (m.call phy).phy.m_sf ≤ 12 := by
  cases m with
  | SetSpreadingFactor sf =>
    obtain ⟨h7, h12⟩ := hm sf rfl
    have : sf % 256 = sf := Nat.mod_eq_of_lt (by omega)
    have hstored : (Method.call phy (Method.SetSpreadingFactor sf)).phy.m_sf = sf := this
    rw [hstored]
    exact ⟨h7, h12⟩
  | SetFrequency f => exact h
  | transition t =>
    simp only [Method.call]
    rw [Transition.call_keeps_m_sf]
    exact h
  | RegisterListener l => exact h
  | UnregisterListener l => exact h

lemma callSequence_m_sf (ms : List Method) :
    ∀ phy : EndDeviceLoraPhy,
      (∀ sf, Method.SetSpreadingFactor sf ∈ ms → 7 ≤ sf ∧ sf ≤ 12) →
      (7 ≤ phy.m_sf ∧ phy.m_sf ≤ 12) →
      7 ≤ (callSequence Method.call phy ms).phy.m_sf ∧
      (callSequence Method.call phy ms).phy.m_sf ≤ 12 := by
  induction ms with
  | nil => intro phy _ h; exact h
  | cons m rest ih =>
    intro phy hms h
    have hfirst := Method.call_m_sf_in_range phy m
      (fun sf e => hms sf (by rw [e]; exact List.mem_cons_self _ _)) h
    cases hs : (m.call phy).status with
    | returned =>
      rw [callSequence_cons_returned _ _ _ _ hs]
      exact ih _ (fun sf hmem => hms sf (List.mem_cons_of_mem _ hmem)) hfirst
    | aborted why =>
      rw [callSequence_cons_aborted _ _ _ _ why hs]
      exact hfirst

/-- C10, against the claim as stated: SetSpreadingFactor (13) on a freshly
constructed PHY returns, the value 13 is stored, and the PHY so reached has a
spreading factor outside [7,12]. -/
theorem SetSpreadingFactor_13_not_rejected :
    (callSequence Method.call (new 10) [Method.SetSpreadingFactor 13]).status
      = Status.returned ∧
    (callSequence Method.call (new 10) [Method.SetSpreadingFactor 13]).phy.GetSpreadingFactor
      = 13 ∧
    ¬ (7 ≤ ((new 10).SetSpreadingFactor 13).GetSpreadingFactor ∧
        ((new 10).SetSpreadingFactor 13).GetSpreadingFactor ≤ 12) := by
  refine ⟨rfl, rfl, ?_⟩
  simp [SetSpreadingFactor, GetSpreadingFactor]

/-- C10 as amended: SetSpreadingFactor stores every value of its parameter type,
inside [7,12] or not, and has no failing path; a freshly constructed PHY has
the spreading factor 7, and GetSpreadingFactor is in [7,12] in every state
reached by calls of the methods of which every SetSpreadingFactor argument is
in [7,12]. -/
theorem SetSpreadingFactor_unchecked (tenMilliSeconds : Time) :
    (∀ (phy : EndDeviceLoraPhy) (sf : Nat), sf < 256 →
      (Method.call phy (Method.SetSpreadingFactor sf)).status = Status.returned ∧
      (phy.SetSpreadingFactor sf).GetSpreadingFactor = sf) ∧
    (new tenMilliSeconds).GetSpreadingFactor = 7 ∧
    (∀ ms : List Method,
      (∀ sf, Method.SetSpreadingFactor sf ∈ ms → 7 ≤ sf ∧ sf ≤ 12) →
      7 ≤ (callSequence Method.call (new tenMilliSeconds) ms).phy.GetSpreadingFactor ∧
      (callSequence Method.call (new tenMilliSeconds) ms).phy.GetSpreadingFactor ≤ 12) := by
  refine ⟨?_, rfl, ?_⟩
  · intro phy sf hsf
    exact ⟨rfl, Nat.mod_eq_of_lt hsf⟩
  · intro ms hms
    exact callSequence_m_sf ms (new tenMilliSeconds) hms ⟨le_refl 7, by simp [new]⟩

/-- Witness of C10 as amended: the value 200 is stored as it is, and a run that
sets 9, goes to standby and then sets 12 ends with the spreading factor 12. -/
theorem SetSpreadingFactor_unchecked_witness :
    ((new 10).SetSpreadingFactor 200).GetSpreadingFactor = 200 ∧
    (7 ≤ (callSequence Method.call (new 10)
        [Method.SetSpreadingFactor 9, Method.transition Transition.SwitchToStandby,
          Method.SetSpreadingFactor 12]).phy.GetSpreadingFactor ∧
      (callSequence Method.call (new 10)
        [Method.SetSpreadingFactor 9, Method.transition Transition.SwitchToStandby,
          Method.SetSpreadingFactor 12]).phy.GetSpreadingFactor ≤ 12) :=
  ⟨((SetSpreadingFactor_unchecked 10).1 (new 10) 200 (by decide)).2,
   (SetSpreadingFactor_unchecked 10).2.2
      [Method.SetSpreadingFactor 9, Method.transition Transition.SwitchToStandby,
        Method.SetSpreadingFactor 12]
      (by
        intro sf hmem
        simp only [List.mem_cons, Method.SetSpreadingFactor.injEq, List.mem_singleton,
          List.not_mem_nil, or_false, reduceCtorEq, false_or] at hmem
        omega)⟩

/-- C11: for every PHY and every spreading factor x in [7,12], after
SetSpreadingFactor (x) the call GetSpreadingFactor () gives x; the state, the
frequency and the listener list are what they were, the call returns and no
listener is called. -/
theorem SetSpreadingFactor_round_trip (phy : EndDeviceLoraPhy) (x : Nat)
    (h7 : 7 ≤ x) (h12 : x ≤ 12) :
    (phy.SetSpreadingFactor x).GetSpreadingFactor = x ∧
    (phy.SetSpreadingFactor x).GetState = phy.GetState ∧
    (phy.SetSpreadingFactor x).m_frequency = phy.m_frequency ∧
    (phy.SetSpreadingFactor x).m_listeners = phy.m_listeners ∧
    (Method.call phy (Method.SetSpreadingFactor x)).status = Status.returned ∧
    (Method.call phy (Method.SetSpreadingFactor x)).calls = [] := by
  refine ⟨?_, rfl, rfl, rfl, rfl, rfl⟩
  exact Nat.mod_eq_of_lt (by omega)

/-- Witness of C11: SF12 set on a PHY in TX with two listeners. -/
theorem SetSpreadingFactor_round_trip_witness :
    (SetSpreadingFactor
        { new 10 with m_state := State.TX, m_listeners := [4, 8] } 12).GetSpreadingFactor
      = 12 ∧
    (SetSpreadingFactor
        { new 10 with m_state := State.TX, m_listeners := [4, 8] } 12).GetState
      = State.TX ∧
    (SetSpreadingFactor
        { new 10 with m_state := State.TX, m_listeners := [4, 8] } 12).m_listeners
      = [4, 8] :=
  have h := SetSpreadingFactor_round_trip
    { new 10 with m_state := State.TX, m_listeners := [4, 8] } 12 (by decide) (by decide)
  ⟨h.1, h.2.1, h.2.2.2.1⟩

end SpreadingFactor

/-! ## The sensitivity table -/

section Sensitivity

open EndDeviceLoraPhy

lemma sensitivity_some_iff (i : Int) :
    (∃ t, sensitivity i = some t) ↔ 0 ≤ i ∧ i < 6 := by
  constructor
  · rintro ⟨t, ht⟩
    by_cases h0 : 0 ≤ i
    · refine ⟨h0, ?_⟩
      by_contra h6
      have hlen : sensitivityTable.length ≤ i.toNat := by
        simp only [sensitivityTable, List.length_cons, List.length_nil]
        omega
      have hnone : sensitivity i = none := by
        simp only [sensitivity, h0, if_true]
        exact List.get?_eq_none.mpr hlen
      rw [hnone] at ht
      cases ht
    · simp [sensitivity, h0] at ht
  · rintro ⟨h0, h6⟩
    interval_cases i <;> simp [sensitivity, sensitivityTable]

lemma sensitivity_defined_iff (sf : Nat) :
    (∃ t, sensitivity ((sf : Int) - 7) = some t) ↔ 7 ≤ sf ∧ sf ≤ 12 := by
  rw [sensitivity_some_iff]
  omega

/-- C12: the read of the sensitivity table at sf - 7 is defined exactly for
the spreading factors 7 to 12 and out of range for every other one, with the
values -124, -127, -130, -133, -135, -137 for SF7 to SF12; so one SF7 event on
868.1 MHz at -120 dBm that passes the window test makes the channel at 868.1
occupied. -/
theorem sensitivity_lookup :
    (∀ sf : Nat, (∃ t, sensitivity ((sf : Int) - 7) = some t) ↔ 7 ≤ sf ∧ sf ≤ 12) ∧
    (∀ sf : Nat, ¬ (7 ≤ sf ∧ sf ≤ 12) → sensitivity ((sf : Int) - 7) = none) ∧
    (sensitivity (((7 : Nat) : Int) - 7) = some (-124) ∧
      sensitivity (((8 : Nat) : Int) - 7) = some (-127) ∧
      sensitivity (((9 : Nat) : Int) - 7) = some (-130) ∧
      sensitivity (((10 : Nat) : Int) - 7) = some (-133) ∧
      sensitivity (((11 : Nat) : Int) - 7) = some (-135) ∧
      sensitivity (((12 : Nat) : Int) - 7) = some (-137)) ∧
    (∀ (phy : EndDeviceLoraPhy) (now : Time) (e : Event),
      e.GetFrequency = 8681 / 10 → e.GetSpreadingFactor = 7 → e.GetRxPowerdBm = -120 →
      e.GetEndTime > now → e.GetStartTime ≤ now + phy.m_CSMAx →
      phy.IsChannelOccupied now [e] (8681 / 10) = some true) := by
  refine ⟨sensitivity_defined_iff, ?_, ?_, ?_⟩
  · intro sf hsf
    cases hs : sensitivity ((sf : Int) - 7) with
    | none => rfl
    | some t => exact absurd ((sensitivity_defined_iff sf).mp ⟨t, hs⟩) hsf
  · simp [sensitivity, sensitivityTable]
  · intro phy now e hf hsf hp hend hstart
    have hsens : sensitivity ((e.GetSpreadingFactor : Int) - 7) = some (-124) := by
      rw [hsf]; simp [sensitivity, sensitivityTable]
    have hdef : ∀ e' ∈ [e], e'.GetFrequency = 8681 / 10 →
        ¬ (e'.GetEndTime ≤ now ∨ now + phy.m_CSMAx < e'.GetStartTime) →
        ∃ t, sensitivity ((e'.GetSpreadingFactor : Int) - 7) = some t := by
      intro e' he' _ _
      rw [List.mem_singleton.mp he']
      exact ⟨_, hsens⟩
    rw [(IsChannelOccupied_spec phy now [e] (8681 / 10) hdef).2]
    refine ⟨e, List.mem_singleton_self e, hf,
      not_or.mpr ⟨not_le.mpr hend, not_lt.mpr hstart⟩, -124, hsens, ?_⟩
    rw [hp]
    norm_num

/-- Witness of C12: the scenario of the specification, sensed at time 3 with a
sensing duration of 10 while the event is on air from 1 to 8. -/
theorem sensitivity_lookup_witness :
    (new 10).IsChannelOccupied 3
      [{ m_frequency := 8681 / 10, m_sf := 7, m_startTime := 1, m_endTime := 8,
         m_rxPowerdBm := -120 }] (8681 / 10) = some true :=
  sensitivity_lookup.2.2.2 (new 10) 3
    { m_frequency := 8681 / 10, m_sf := 7, m_startTime := 1, m_endTime := 8,
      m_rxPowerdBm := -120 }
    rfl rfl rfl (by decide) (by decide)

end Sensitivity

/-! ## The listener registry and the fan-out -/

section Listeners

open EndDeviceLoraPhy

lemma foldl_RegisterListener (ls : List EndDeviceLoraPhyListener) :
    ∀ phy : EndDeviceLoraPhy,
      (ls.foldl RegisterListener phy).m_listeners = phy.m_listeners ++ ls := by
  induction ls with
  | nil => intro phy; simp
  | cons l rest ih =>
    intro phy
    rw [List.foldl_cons, ih]
    simp [RegisterListener]

/-- The listeners called by a transition that returns are the registered ones,
each once, in the order of the list. -/
lemma Transition.call_callees (phy : EndDeviceLoraPhy) (t : Transition)
    (h : (t.call phy).status = Status.returned) :
    (t.call phy).calls.map Prod.fst = phy.m_listeners := by
  by_cases hp : tablePrecondition t phy.m_state = true
  · cases t with
    | SwitchToStandby =>
      simp [Transition.call, EndDeviceLoraPhy.SwitchToStandby, List.map_map,
        Function.comp_def]
    | SwitchToRx =>
      have h' : phy.m_state = State.STANDBY := by simpa [tablePrecondition] using hp
      simp [Transition.call, SwitchToRx_standby phy h', List.map_map, Function.comp_def]
    | SwitchToTx p =>
      have h' : phy.m_state ≠ State.RX := by simpa [tablePrecondition] using hp
      simp [Transition.call, SwitchToTx_notRx phy p h', List.map_map, Function.comp_def]
    | SwitchToSleep =>
      have h' : phy.m_state = State.STANDBY := by simpa [tablePrecondition] using hp
      simp [Transition.call, SwitchToSleep_standby phy h', List.map_map, Function.comp_def]
  · rw [Transition.call_of_not_precondition phy t (by simpa using hp)] at h
    cases h

/-- C13: on a PHY whose listener list is L, after RegisterListener of
l1, ..., ln in this order, a transition that returns calls the listeners of L
followed by l1, ..., ln, each once and in this order, with the callback of the
transition (NotifyStandby, NotifyRxStart, NotifyTxStart with the same power,
NotifySleep); with no listener a transition calls nobody and still sets the
state. -/
theorem transition_notifies_in_registration_order (phy : EndDeviceLoraPhy)
    (ls : List EndDeviceLoraPhyListener) (txPowerDbm : Double) :
    ((ls.foldl RegisterListener phy).SwitchToStandby.calls =
        (phy.m_listeners ++ ls).map (fun l => (l, Notification.NotifyStandby)) ∧
      (ls.foldl RegisterListener phy).SwitchToStandby.calls.length =
        phy.m_listeners.length + ls.length) ∧
    ((ls.foldl RegisterListener phy).SwitchToRx.status = Status.returned →
      (ls.foldl RegisterListener phy).SwitchToRx.calls =
        (phy.m_listeners ++ ls).map (fun l => (l, Notification.NotifyRxStart))) ∧
    (((ls.foldl RegisterListener phy).SwitchToTx txPowerDbm).status = Status.returned →
      ((ls.foldl RegisterListener phy).SwitchToTx txPowerDbm).calls =
        (phy.m_listeners ++ ls).map (fun l => (l, Notification.NotifyTxStart txPowerDbm))) ∧
    ((ls.foldl RegisterListener phy).SwitchToSleep.status = Status.returned →
      (ls.foldl RegisterListener phy).SwitchToSleep.calls =
        (phy.m_listeners ++ ls).map (fun l => (l, Notification.NotifySleep))) ∧
    (phy.m_listeners = [] →
      (phy.SwitchToStandby.calls = [] ∧ phy.SwitchToStandby.phy.GetState = State.STANDBY) ∧
      (phy.SwitchToRx.status = Status.returned →
        phy.SwitchToRx.calls = [] ∧ phy.SwitchToRx.phy.GetState = State.RX) ∧
      ((phy.SwitchToTx txPowerDbm).status = Status.returned →
        (phy.SwitchToTx txPowerDbm).calls = [] ∧
        (phy.SwitchToTx txPowerDbm).phy.GetState = State.TX) ∧
      (phy.SwitchToSleep.status = Status.returned →
        phy.SwitchToSleep.calls = [] ∧ phy.SwitchToSleep.phy.GetState = State.SLEEP)) := by
  have hl := foldl_RegisterListener ls phy
  refine ⟨⟨?_, ?_⟩, ?_, ?_, ?_, ?_⟩
  · simp only [SwitchToStandby, hl]
  · simp only [SwitchToStandby, hl, List.length_map, List.length_append]
  · intro hret
    by_cases hs : (ls.foldl RegisterListener phy).m_state = State.STANDBY
    · rw [SwitchToRx_standby _ hs, hl]
    · rw [SwitchToRx_other _ hs] at hret; cases hret
  · intro hret
    by_cases hs : (ls.foldl RegisterListener phy).m_state = State.RX
    · rw [SwitchToTx_rx _ _ hs] at hret; cases hret
    · rw [SwitchToTx_notRx _ _ hs, hl]
  · intro hret
    by_cases hs : (ls.foldl RegisterListener phy).m_state = State.STANDBY
    · rw [SwitchToSleep_standby _ hs, hl]
    · rw [SwitchToSleep_other _ hs] at hret; cases hret
  · intro hnone
    refine ⟨⟨by simp [SwitchToStandby, hnone], rfl⟩, ?_, ?_, ?_⟩
    · intro hret
      by_cases hs : phy.m_state = State.STANDBY
      · rw [SwitchToRx_standby _ hs, hnone]; exact ⟨rfl, rfl⟩
      · rw [SwitchToRx_other _ hs] at hret; cases hret
    · intro hret
      by_cases hs : phy.m_state = State.RX
      · rw [SwitchToTx_rx _ _ hs] at hret; cases hret
      · rw [SwitchToTx_notRx _ _ hs, hnone]; exact ⟨rfl, rfl⟩
    · intro hret
      by_cases hs : phy.m_state = State.STANDBY
      · rw [SwitchToSleep_standby _ hs, hnone]; exact ⟨rfl, rfl⟩
      · rw [SwitchToSleep_other _ hs] at hret; cases hret

/-- Witness of C13: three listeners registered on a fresh PHY are told of a
transmission at 14 dBm in the order of their registration. -/
theorem transition_notifies_in_registration_order_witness :
    (SwitchToTx ([31, 11, 23].foldl RegisterListener (new 10)) 14).calls =
      [(31, Notification.NotifyTxStart 14), (11, Notification.NotifyTxStart 14),
        (23, Notification.NotifyTxStart 14)] :=
  (transition_notifies_in_registration_order (new 10) [31, 11, 23] 14).2.2.1 rfl

/-- C14: UnregisterListener of a listener that is not in the list leaves the
list as it is, same members in the same order, and leaves the state, the
frequency and the spreading factor as they are. -/
theorem UnregisterListener_absent (phy : EndDeviceLoraPhy)
    (listener : EndDeviceLoraPhyListener) (h : listener ∉ phy.m_listeners) :
    (phy.UnregisterListener listener).m_listeners = phy.m_listeners ∧
    (phy.UnregisterListener listener).GetState = phy.GetState ∧
    (phy.UnregisterListener listener).m_frequency = phy.m_frequency ∧
    (phy.UnregisterListener listener).GetSpreadingFactor = phy.GetSpreadingFactor ∧
    phy.UnregisterListener listener = phy := by
  have hl : (phy.UnregisterListener listener).m_listeners = phy.m_listeners :=
    List.erase_of_not_mem h
  refine ⟨hl, rfl, rfl, rfl, ?_⟩
  cases phy
  simp only [UnregisterListener] at hl ⊢
  rw [hl]

/-- Witness of C14: listener 5 is not among 4, 8, 4. -/
theorem UnregisterListener_absent_witness :
    (UnregisterListener { new 10 with m_listeners := [4, 8, 4] } 5).m_listeners
      = [4, 8, 4] :=
  (UnregisterListener_absent { new 10 with m_listeners := [4, 8, 4] } 5 (by decide)).1

/-- C15: a transition called against its precondition ends in the contract
violation with the object as the call found it, so with the same state, and
without a call to any listener. -/
theorem rejected_transition_atomic (phy : EndDeviceLoraPhy) (txPowerDbm : Double) :
    (phy.GetState ≠ State.STANDBY →
      phy.SwitchToRx.status = Status.aborted Fatal.contractViolation ∧
      phy.SwitchToRx.phy = phy ∧ phy.SwitchToRx.phy.GetState = phy.GetState ∧
      phy.SwitchToRx.calls = []) ∧
    (phy.GetState = State.RX →
      (phy.SwitchToTx txPowerDbm).status = Status.aborted Fatal.contractViolation ∧
      (phy.SwitchToTx txPowerDbm).phy = phy ∧
      (phy.SwitchToTx txPowerDbm).phy.GetState = phy.GetState ∧
      (phy.SwitchToTx txPowerDbm).calls = []) ∧
    (phy.GetState ≠ State.STANDBY →
      phy.SwitchToSleep.status = Status.aborted Fatal.contractViolation ∧
      phy.SwitchToSleep.phy = phy ∧ phy.SwitchToSleep.phy.GetState = phy.GetState ∧
      phy.SwitchToSleep.calls = []) := by
  refine ⟨fun h => ?_, fun h => ?_, fun h => ?_⟩
  · rw [SwitchToRx_other phy h]; exact ⟨rfl, rfl, rfl, rfl⟩
  · rw [SwitchToTx_rx phy txPowerDbm h]; exact ⟨rfl, rfl, rfl, rfl⟩
  · rw [SwitchToSleep_other phy h]; exact ⟨rfl, rfl, rfl, rfl⟩

/-- Witness of C15: a PHY in RX with two listeners, asked to transmit, stays in
RX and calls neither listener. -/
theorem rejected_transition_atomic_witness :
    (SwitchToTx { new 10 with m_state := State.RX, m_listeners := [4, 8] } 14).status
      = Status.aborted Fatal.contractViolation ∧
    (SwitchToTx { new 10 with m_state := State.RX, m_listeners := [4, 8] } 14).phy.GetState
      = State.RX ∧
    (SwitchToTx { new 10 with m_state := State.RX, m_listeners := [4, 8] } 14).calls = [] :=
  have h := (rejected_transition_atomic
    { new 10 with m_state := State.RX, m_listeners := [4, 8] } 14).2.1 rfl
  ⟨h.1, h.2.2.1, h.2.2.2⟩

lemma count_calls (ls : List EndDeviceLoraPhyListener) (n : Notification)
    (x : EndDeviceLoraPhyListener) :
    (ls.map (fun l => (l, n))).count (x, n) = ls.count x := by
  induction ls with
  | nil => rfl
  | cons l rest ih =>
    rw [List.map_cons, List.count_cons, List.count_cons, ih]
    by_cases h : l = x
    · simp [h]
    · simp [h]

/-- C20: the registry is a list with repetitions. RegisterListener appends at
the end, also a listener that is already in the list, and a listener that is k
times in the list is called k times by a transition that returns;
UnregisterListener of a listener in the list removes its first occurrence and
nothing else, the other entries keeping their order, so the list gets shorter
by one, and a listener that was in the list more than once is still in it and
still called. -/
theorem listeners_kept_with_repetitions (phy : EndDeviceLoraPhy)
    (x : EndDeviceLoraPhyListener) (t : Transition) (k : Nat) :
    (phy.RegisterListener x).m_listeners = phy.m_listeners ++ [x] ∧
    ((List.replicate k x).foldl RegisterListener phy).SwitchToStandby.calls.count
        (x, Notification.NotifyStandby) = phy.m_listeners.count x + k ∧
    ((t.call phy).status = Status.returned →
      ((t.call phy).calls.map Prod.fst).count x = phy.m_listeners.count x) ∧
    (x ∈ phy.m_listeners →
      (∃ before after, phy.m_listeners = before ++ x :: after ∧ x ∉ before ∧
        (phy.UnregisterListener x).m_listeners = before ++ after) ∧
      (phy.UnregisterListener x).m_listeners.length + 1 = phy.m_listeners.length) ∧
    (2 ≤ phy.m_listeners.count x →
      x ∈ (phy.UnregisterListener x).m_listeners ∧
      (x, Notification.NotifyStandby) ∈ (phy.UnregisterListener x).SwitchToStandby.calls ∧
      (phy.UnregisterListener x).SwitchToStandby.calls.count (x, Notification.NotifyStandby)
        = phy.m_listeners.count x - 1) := by
  refine ⟨rfl, ?_, ?_, ?_, ?_⟩
  · have hl := foldl_RegisterListener (List.replicate k x) phy
    simp only [SwitchToStandby, hl, count_calls, List.count_append,
      List.count_replicate_self]
  · intro hret
    rw [Transition.call_callees phy t hret]
  · intro hmem
    obtain ⟨before, after, h1, h2, h3⟩ := List.exists_erase_eq hmem
    refine ⟨⟨before, after, h2, h1, h3⟩, ?_⟩
    have hlen : (phy.UnregisterListener x).m_listeners.length = phy.m_listeners.length - 1 :=
      List.length_erase_of_mem hmem
    have hpos : 0 < phy.m_listeners.length := List.length_pos_of_mem hmem
    omega
  · intro h2
    have hcount : (phy.UnregisterListener x).m_listeners.count x
        = phy.m_listeners.count x - 1 := List.count_erase_self x phy.m_listeners
    have hmem : x ∈ (phy.UnregisterListener x).m_listeners :=
      List.count_pos_iff.mp (by omega)
    refine ⟨hmem, ?_, ?_⟩
    · simp only [SwitchToStandby, List.mem_map, Prod.mk.injEq, and_true, exists_eq_right]
      exact hmem
    · simp only [SwitchToStandby, count_calls]
      exact hcount

/-- Witness of C20: listener 4 is registered twice around listener 8; after
UnregisterListener (4) the list is 8, 4 and listener 4 is still called once. -/
theorem listeners_kept_with_repetitions_witness :
    ((UnregisterListener { new 10 with m_listeners := [4, 8, 4] } 4).m_listeners.length + 1
      = ([4, 8, 4] : List EndDeviceLoraPhyListener).length) ∧
    (4, Notification.NotifyStandby) ∈
      (UnregisterListener { new 10 with m_listeners := [4, 8, 4] } 4).SwitchToStandby.calls :=
  ⟨((listeners_kept_with_repetitions { new 10 with m_listeners := [4, 8, 4] } 4
      Transition.SwitchToStandby 0).2.2.2.1 (by decide)).2,
   ((listeners_kept_with_repetitions { new 10 with m_listeners := [4, 8, 4] } 4
      Transition.SwitchToStandby 0).2.2.2.2 (by decide)).2.1⟩

end Listeners

/-! ## Channel occupancy: what the result depends on -/

section OccupancyDependence

open EndDeviceLoraPhy

/-- A read of the table out of bounds, at whatever place of the list, leaves the
loop without a result. -/
lemma IsChannelOccupied.loop_none (frequency : Double) (ccgStart ccgEnd : Time)
    (interferers : List Event) :
    (∃ e ∈ interferers, e.GetFrequency = frequency ∧
        ¬ (e.GetEndTime ≤ ccgStart ∨ ccgEnd < e.GetStartTime) ∧
        sensitivity ((e.GetSpreadingFactor : Int) - 7) = none) →
    ∀ c : Int, IsChannelOccupied.loop frequency ccgStart ccgEnd interferers c = none := by
  induction interferers with
  | nil => rintro ⟨e, he, _⟩; cases he
  | cons ite rest ih =>
    rintro ⟨e, he, h1, h2, h3⟩ c
    by_cases hcond : ite.GetFrequency = frequency ∧
        ¬ (ite.GetEndTime ≤ ccgStart ∨ ccgEnd < ite.GetStartTime)
    · cases hs : sensitivity ((ite.GetSpreadingFactor : Int) - 7) with
      | none => simp only [IsChannelOccupied.loop, hcond, hs]; simp
      | some t =>
        have hrest : e ∈ rest := by
          rcases List.mem_cons.mp he with rfl | he'
          · rw [hs] at h3; cases h3
          · exact he'
        have hnone := ih ⟨e, hrest, h1, h2, h3⟩
        by_cases hpow : ite.GetRxPowerdBm > t
        · simp only [IsChannelOccupied.loop, hcond, hs, hpow]
          simpa using hnone (c + 1)
        · simp only [IsChannelOccupied.loop, hcond, hs, hpow]
          simpa using hnone c
    · have hrest : e ∈ rest := by
        rcases List.mem_cons.mp he with rfl | he'
        · exact absurd ⟨h1, h2⟩ hcond
        · exact he'
      simp only [IsChannelOccupied.loop, hcond]
      simpa using ih ⟨e, hrest, h1, h2, h3⟩ c

/-- IsChannelOccupied returns a boolean exactly when every event that passes
the frequency and window tests has a threshold in the table. -/
lemma IsChannelOccupied_some_iff (phy : EndDeviceLoraPhy) (now : Time)
    (interferers : List Event) (frequency : Double) :
    (∃ b, phy.IsChannelOccupied now interferers frequency = some b) ↔
    ∀ e ∈ interferers, e.GetFrequency = frequency →
      ¬ (e.GetEndTime ≤ now ∨ now + phy.m_CSMAx < e.GetStartTime) →
      ∃ t, sensitivity ((e.GetSpreadingFactor : Int) - 7) = some t := by
  constructor
  · rintro ⟨b, hb⟩ e he h1 h2
    cases hs : sensitivity ((e.GetSpreadingFactor : Int) - 7) with
    | some t => exact ⟨t, rfl⟩
    | none =>
      have hnone := IsChannelOccupied.loop_none frequency now (now + phy.m_CSMAx)
        interferers ⟨e, he, h1, h2, hs⟩ 0
      simp [IsChannelOccupied, hnone] at hb
  · intro hdef
    exact (IsChannelOccupied_spec phy now interferers frequency hdef).1

/-- The result depends on the snapshot through its set of events only. -/
lemma IsChannelOccupied_congr_mem (phy : EndDeviceLoraPhy) (now : Time)
    (l l' : List Event) (frequency : Double) (hmem : ∀ e, e ∈ l ↔ e ∈ l') :
    phy.IsChannelOccupied now l frequency = phy.IsChannelOccupied now l' frequency := by
  by_cases hdef : ∀ e ∈ l, e.GetFrequency = frequency →
      ¬ (e.GetEndTime ≤ now ∨ now + phy.m_CSMAx < e.GetStartTime) →
      ∃ t, sensitivity ((e.GetSpreadingFactor : Int) - 7) = some t
  · have hdef' : ∀ e ∈ l', e.GetFrequency = frequency →
        ¬ (e.GetEndTime ≤ now ∨ now + phy.m_CSMAx < e.GetStartTime) →
        ∃ t, sensitivity ((e.GetSpreadingFactor : Int) - 7) = some t :=
      fun e he => hdef e ((hmem e).mpr he)
    obtain ⟨⟨b, hb⟩, hiff⟩ := IsChannelOccupied_spec phy now l frequency hdef
    obtain ⟨⟨b', hb'⟩, hiff'⟩ := IsChannelOccupied_spec phy now l' frequency hdef'
    have hsame : phy.IsChannelOccupied now l frequency = some true ↔
        phy.IsChannelOccupied now l' frequency = some true := by
      rw [hiff, hiff']
      constructor
      · rintro ⟨e, he, h⟩; exact ⟨e, (hmem e).mp he, h⟩
      · rintro ⟨e, he, h⟩; exact ⟨e, (hmem e).mpr he, h⟩
    rw [hb, hb'] at hsame ⊢
    simp only [Option.some.injEq] at hsame
    cases b <;> cases b' <;> simp_all
  · have hnone : ∀ l'' : List Event, (∀ e, e ∈ l ↔ e ∈ l'') →
        phy.IsChannelOccupied now l'' frequency = none := by
      intro l'' hmem''
      cases hr : phy.IsChannelOccupied now l'' frequency with
      | none => rfl
      | some b =>
        exact absurd (fun e he => (IsChannelOccupied_some_iff phy now l'' frequency).mp
          ⟨b, hr⟩ e ((hmem'' e).mp he)) hdef
    rw [hnone l (fun _ => Iff.rfl), hnone l' hmem]

/-- C16: two PHYs with the same sensing duration, whatever their own spreading
factor, tuned frequency, state and listeners, give the same IsChannelOccupied
on the same snapshot, time and frequency; and for one event that passes the
frequency and window tests the result is the comparison of its power with the
threshold of the spreading factor of the event. -/
theorem IsChannelOccupied_independent_of_device (phy other : EndDeviceLoraPhy)
    (now : Time) (interferers : List Event) (frequency : Double)
    (hsame : other.m_CSMAx = phy.m_CSMAx) :
    other.IsChannelOccupied now interferers frequency =
      phy.IsChannelOccupied now interferers frequency ∧
    (∀ (e : Event) (t : Double), e.GetFrequency = frequency →
      ¬ (e.GetEndTime ≤ now ∨ now + phy.m_CSMAx < e.GetStartTime) →
      sensitivity ((e.GetSpreadingFactor : Int) - 7) = some t →
      other.IsChannelOccupied now [e] frequency = some (decide (e.GetRxPowerdBm > t))) := by
  constructor
  · simp only [IsChannelOccupied, hsame]
  · intro e t hf hw ht
    by_cases hpow : e.GetRxPowerdBm > t
    · simp [IsChannelOccupied, IsChannelOccupied.loop, hsame, hf, hw, ht, hpow]
    · simp [IsChannelOccupied, IsChannelOccupied.loop, hsame, hf, hw, ht, hpow]

/-- Witness of C16: a device set to SF12, tuned to 868.5 MHz, receiving and
with a listener senses 868.1 MHz as the freshly built device does: an SF7 event
at -130 dBm is below the SF7 threshold, though above the SF12 one. -/
theorem IsChannelOccupied_independent_of_device_witness :
    IsChannelOccupied
      { m_state := State.RX, m_frequency := 8685 / 10, m_sf := 12, m_CSMAx := 10,
        m_listeners := [4] } 0
      [{ m_frequency := 8681 / 10, m_sf := 7, m_startTime := 0, m_endTime := 5,
         m_rxPowerdBm := -130 }] (8681 / 10) =
    (new 10).IsChannelOccupied 0
      [{ m_frequency := 8681 / 10, m_sf := 7, m_startTime := 0, m_endTime := 5,
         m_rxPowerdBm := -130 }] (8681 / 10) :=
  (IsChannelOccupied_independent_of_device (new 10)
    { m_state := State.RX, m_frequency := 8685 / 10, m_sf := 12, m_CSMAx := 10,
      m_listeners := [4] } 0 _ (8681 / 10) rfl).1

/-- C17: when every event that is on the frequency and passes the window test
has a spreading factor in [7,12], every read of the table that IsChannelOccupied
makes is at an index sf - 7 in [0,5], and the call ends with a boolean; the
events on other frequencies or outside the window are not constrained. -/
theorem IsChannelOccupied_index_in_range (phy : EndDeviceLoraPhy) (now : Time)
    (interferers : List Event) (frequency : Double)
    (hsf : ∀ e ∈ interferers, e.GetFrequency = frequency →
      ¬ (e.GetEndTime ≤ now ∨ now + phy.m_CSMAx < e.GetStartTime) →
      7 ≤ e.GetSpreadingFactor ∧ e.GetSpreadingFactor ≤ 12) :
    (∀ e ∈ interferers, e.GetFrequency = frequency →
      ¬ (e.GetEndTime ≤ now ∨ now + phy.m_CSMAx < e.GetStartTime) →
      (0 ≤ (e.GetSpreadingFactor : Int) - 7 ∧ (e.GetSpreadingFactor : Int) - 7 ≤ 5) ∧
      ∃ t, sensitivity ((e.GetSpreadingFactor : Int) - 7) = some t) ∧
    (∃ b, phy.IsChannelOccupied now interferers frequency = some b) := by
  have hdef : ∀ e ∈ interferers, e.GetFrequency = frequency →
      ¬ (e.GetEndTime ≤ now ∨ now + phy.m_CSMAx < e.GetStartTime) →
      ∃ t, sensitivity ((e.GetSpreadingFactor : Int) - 7) = some t :=
    fun e he h1 h2 => sensitivity_of_range _ (hsf e he h1 h2).1 (hsf e he h1 h2).2
  refine ⟨fun e he h1 h2 => ⟨?_, hdef e he h1 h2⟩,
    (IsChannelOccupied_some_iff phy now interferers frequency).mpr hdef⟩
  obtain ⟨h7, h12⟩ := hsf e he h1 h2
  omega

/-- Witness of C17: an SF9 event in the window on 868.1 MHz, next to an event
on 868.3 MHz and an event on 868.1 MHz that is over before the window, both
with a spreading factor that has no threshold. -/
theorem IsChannelOccupied_index_in_range_witness :
    ∃ b, (new 10).IsChannelOccupied 20
      [{ m_frequency := 8681 / 10, m_sf := 9, m_startTime := 15, m_endTime := 25,
         m_rxPowerdBm := -100 },
       { m_frequency := 8683 / 10, m_sf := 40, m_startTime := 15, m_endTime := 25,
         m_rxPowerdBm := 0 },
       { m_frequency := 8681 / 10, m_sf := 3, m_startTime := 1, m_endTime := 6,
         m_rxPowerdBm := 0 }] (8681 / 10) = some b :=
  (IsChannelOccupied_index_in_range (new 10) 20 _ (8681 / 10) (by
    intro e he hf hw
    simp only [List.mem_cons, List.mem_singleton, List.not_mem_nil, or_false] at he
    rcases he with rfl | rfl | rfl
    · simp [Event.GetSpreadingFactor]
    · norm_num [Event.GetFrequency] at hf
    · exact absurd (Or.inl (by decide)) hw)).2

/-- C18, the code at the event the comment and the condition disagree on: an
SF7 event on 868.1 MHz at -120 dBm whose end time is the start of the CCG. Its
start time is not later than the end of the CCG and its end time is not earlier
than the start of the CCG, its power is above its threshold, and
IsChannelOccupied is false. -/
theorem IsChannelOccupied_event_ending_at_ccgStart :
    ¬ (Event.GetStartTime
        { m_frequency := 8681 / 10, m_sf := 7, m_startTime := 12, m_endTime := 20,
          m_rxPowerdBm := -120 } > 20 + (new 10).m_CSMAx) ∧
    ¬ (Event.GetEndTime
        { m_frequency := 8681 / 10, m_sf := 7, m_startTime := 12, m_endTime := 20,
          m_rxPowerdBm := -120 } < 20) ∧
    sensitivity (((7 : Nat) : Int) - 7) = some (-124) ∧
    (-120 : Double) > -124 ∧
    (new 10).IsChannelOccupied 20
      [{ m_frequency := 8681 / 10, m_sf := 7, m_startTime := 12, m_endTime := 20,
         m_rxPowerdBm := -120 }] (8681 / 10) = some false := by
  refine ⟨by decide, by decide, by simp [sensitivity, sensitivityTable], by norm_num, ?_⟩
  simp [IsChannelOccupied, IsChannelOccupied.loop, Event.GetEndTime, Event.GetFrequency]

/-- C19: adding events with spreading factors in [7,12] to a snapshot on which
the channel is occupied, at whatever places of the list, leaves it occupied;
and the result is the same for every permutation of the snapshot. -/
theorem IsChannelOccupied_monotone_and_order_independent (phy : EndDeviceLoraPhy)
    (now : Time) (frequency : Double) :
    (∀ snapshot further larger : List Event,
      larger.Perm (snapshot ++ further) →
      (∀ e ∈ further, 7 ≤ e.GetSpreadingFactor ∧ e.GetSpreadingFactor ≤ 12) →
      phy.IsChannelOccupied now snapshot frequency = some true →
      phy.IsChannelOccupied now larger frequency = some true) ∧
    (∀ snapshot permuted : List Event, permuted.Perm snapshot →
      phy.IsChannelOccupied now permuted frequency =
        phy.IsChannelOccupied now snapshot frequency) := by
  constructor
  · intro snapshot further larger hperm hsf htrue
    have hmem : ∀ e, e ∈ larger ↔ e ∈ snapshot ∨ e ∈ further := fun e => by
      rw [hperm.mem_iff, List.mem_append]
    have hdefS := (IsChannelOccupied_some_iff phy now snapshot frequency).mp ⟨true, htrue⟩
    have hdefL : ∀ e ∈ larger, e.GetFrequency = frequency →
        ¬ (e.GetEndTime ≤ now ∨ now + phy.m_CSMAx < e.GetStartTime) →
        ∃ t, sensitivity ((e.GetSpreadingFactor : Int) - 7) = some t := by
      intro e he h1 h2
      rcases (hmem e).mp he with hS | hF
      · exact hdefS e hS h1 h2
      · exact sensitivity_of_range _ (hsf e hF).1 (hsf e hF).2
    obtain ⟨e, he, h⟩ :=
      (IsChannelOccupied_spec phy now snapshot frequency hdefS).2.mp htrue
    exact (IsChannelOccupied_spec phy now larger frequency hdefL).2.mpr
      ⟨e, (hmem e).mpr (Or.inl he), h⟩
  · intro snapshot permuted hperm
    exact IsChannelOccupied_congr_mem phy now permuted snapshot frequency
      (fun e => hperm.mem_iff)

/-- Witness of C19: a weak SF12 event put in front of a strong SF7 event leaves
the channel occupied. -/
theorem IsChannelOccupied_monotone_and_order_independent_witness :
    (new 10).IsChannelOccupied 0
      [{ m_frequency := 8681 / 10, m_sf := 12, m_startTime := 0, m_endTime := 5,
         m_rxPowerdBm := -140 },
       { m_frequency := 8681 / 10, m_sf := 7, m_startTime := 0, m_endTime := 5,
         m_rxPowerdBm := -120 }] (8681 / 10) = some true :=
  (IsChannelOccupied_monotone_and_order_independent (new 10) 0 (8681 / 10)).1
    [{ m_frequency := 8681 / 10, m_sf := 7, m_startTime := 0, m_endTime := 5,
       m_rxPowerdBm := -120 }]
    [{ m_frequency := 8681 / 10, m_sf := 12, m_startTime := 0, m_endTime := 5,
       m_rxPowerdBm := -140 }]
    _ (List.Perm.swap _ _ [])
    (by
      intro e he
      rw [List.mem_singleton.mp he]
      simp [Event.GetSpreadingFactor])
    (by
      simp [IsChannelOccupied, IsChannelOccupied.loop, Event.GetEndTime,
        Event.GetStartTime, Event.GetFrequency, Event.GetSpreadingFactor,
        Event.GetRxPowerdBm, sensitivity, sensitivityTable, new]
      norm_num)

end OccupancyDependence

end Lorawan
